import Mathlib

/-!
# Verification of the Rush install/link command layer

Shallow embedding of the Rush command-layer actions:
* `GenerateAction.onExecute` (src/apps/rush/src/actions/GenerateAction.ts)
* `RushCommandLineParser` (src/apps/rush/src/actions/RushCommandLineParser.ts)
* `UnlinkAction.onExecute` (src/unnamed/part_000)
* the Approved Packages Governance rewrite (modelled from the spec; the
  implementation of `ApprovedPackagesChecker.rewriteConfigFiles` is not part
  of the sources, only its call site and its JSON schema are)

Filesystem effects are modelled over an explicit state record with a logical
clock: every write stamps the current clock value as the file's modification
time and advances the clock, so "timestamp of A ≥ timestamp of B" statements
become arithmetic over the clock.  Behaviour of the external package-manager
subprocess (success/failure, whether the marker file is observed afterwards)
is an explicit oracle record `ExternalWorld`, mirroring the spec's treatment
of the tool as an external collaborator whose reported success may disagree
with the observed filesystem state.
-/

namespace Rush

/-- Errors raised by the command layer, following the spec's taxonomy
(§7): `externalTool` for subprocess failure, `missingArtifact` for an
expected artifact absent after a step reported success.  The code throws
plain `Error` objects; the constructor records the message. -/
inductive RushError where
  | externalTool (message : String)
  | missingArtifact (message : String)
deriving DecidableEq, Repr

/-- The filesystem state tracked by the install reconciler claims.  Each
`Option Nat` field is a file: `none` = absent, `some t` = present with
modification time `t`.  `clock` is the logical time of the next write.
`sharedCacheInstalled` records whether the external tool has populated the
shared dependency cache during this run. -/
structure FsState where
  clock : Nat
  /-- `common/npm-shrinkwrap.json`, the committed Lock File. -/
  committedShrinkwrap : Option Nat
  /-- `common/temp/npm-shrinkwrap.json`, the staging Lock File. -/
  tempShrinkwrap : Option Nat
  /-- the Synthesized Manifest written into the common temp folder. -/
  tempManifest : Option Nat
  /-- the install flag file (`commonNodeModulesMarkerFilename`), the Install Marker. -/
  installMarker : Option Nat
  sharedCacheInstalled : Bool
deriving DecidableEq, Repr

/-- Oracle for the external package-manager subprocess invocations inside one
`rush generate` run: whether the bulk install exits 0, whether the install
flag file is observed on disk after a claimed-successful install (the spec's
defensive consistency check contemplates it being unexpectedly absent), and
whether `npm shrinkwrap` exits 0 and emits a staging lock file (it emits none
when the synthesized manifest is empty). -/
structure ExternalWorld where
  installSucceeds : Bool
  installCreatesMarker : Bool
  shrinkwrapSucceeds : Bool
  shrinkwrapProducesFile : Bool
deriving DecidableEq, Repr

/-- `InstallType` of `InstallManager.installCommonModules` as used by
GenerateAction.ts: `normal` for the `--lazy` incremental install,
`forceClean` for the clean install. -/
inductive InstallType where
  | normal
  | forceClean
deriving DecidableEq, Repr

/-- Modelled from the spec: `InstallManager.createTempModules` is not under
the sources; per spec §4.3 the Temp Manifest Synthesizer writes the
Synthesized Manifest (one flat mapping) into the common temp folder. -/
def createTempModules (s : FsState) : FsState :=
  { s with tempManifest := some s.clock, clock := s.clock + 1 }

/-- GenerateAction.ts lines 71-74: delete the committed shrinkwrap file if it
exists (`fsx.existsSync` guard then `fsx.unlinkSync`). -/
def deleteCommittedShrinkwrapFile (s : FsState) : FsState :=
  if s.committedShrinkwrap.isSome then { s with committedShrinkwrap := none } else s

/-- GenerateAction.ts lines 75-77: delete the temp shrinkwrap file if it
exists. -/
def deleteTempShrinkwrapFile (s : FsState) : FsState :=
  if s.tempShrinkwrap.isSome then { s with tempShrinkwrap := none } else s

/-- Modelled from the spec: `InstallManager.installCommonModules` is not
under the sources.  Per spec §4.4 it drives the external tool to install
into the shared cache (clearing it first for a clean install); subprocess
non-zero exit is fatal (`ExternalToolError`); the install flag file is
normally created by it (GenerateAction.ts line 103's comment), and the
oracle's `installCreatesMarker` records whether the marker is actually
observed on disk afterwards. -/
def installCommonModules (_t : InstallType) (w : ExternalWorld) (s : FsState) :
    Except RushError FsState :=
  if w.installSucceeds then
    .ok { s with
          sharedCacheInstalled := true,
          installMarker := if w.installCreatesMarker then some s.clock else none,
          clock := s.clock + 1 }
  else
    .error (.externalTool "npm install failed")

/-- GenerateAction.ts lines 92-97: run `npm shrinkwrap` in the common temp
folder; on success it writes the staging lock file there (none when the
synthesized manifest is empty); non-zero exit is fatal. -/
def runNpmShrinkwrap (w : ExternalWorld) (s : FsState) : Except RushError FsState :=
  if w.shrinkwrapSucceeds then
    .ok { s with
          tempShrinkwrap := if w.shrinkwrapProducesFile then some s.clock else s.tempShrinkwrap,
          clock := s.clock + 1 }
  else
    .error (.externalTool "npm shrinkwrap failed")

/-- Modelled from the spec: `InstallManager.syncFile` is not under the
sources.  Per GenerateAction.ts line 99's comment and spec §4.4 it copies
`common/temp/npm-shrinkwrap.json` to the committed location, or deletes the
committed file when the source is absent. -/
def syncFile (s : FsState) : FsState :=
  match s.tempShrinkwrap with
  | some _ => { s with committedShrinkwrap := some s.clock, clock := s.clock + 1 }
  | none => { s with committedShrinkwrap := none }

/-- GenerateAction.ts lines 108-113: if the install flag file exists, rewrite
it (bumping its timestamp); otherwise throw
`Error('The install flag file is missing')`. -/
def refreshMarkerStep (s : FsState) : Except RushError FsState :=
  match s.installMarker with
  | some _ => .ok { s with installMarker := some s.clock, clock := s.clock + 1 }
  | none => .error (.missingArtifact "The install flag file is missing")

/-- `GenerateAction.onExecute` (GenerateAction.ts lines 56-117), restricted
to the files tracked by `FsState`.  (`ApprovedPackagesChecker.rewriteConfigFiles`
at line 60 writes only the approved-packages file and
`ensureLocalNpmTool` touches only the local npm tool folder; neither touches
any `FsState` field, so they are not steps here.)  Returns the observed
filesystem state — at the abort point when an error was thrown — together
with the error, if any. -/
def generateOnExecute (isLazy : Bool) (w : ExternalWorld) (s0 : FsState) :
    FsState × Option RushError :=
  let s1 := createTempModules s0
  let s2 := deleteTempShrinkwrapFile (deleteCommittedShrinkwrapFile s1)
  if isLazy then
    match installCommonModules InstallType.normal w s2 with
    | .ok s3 => (s3, none)
    | .error e => (s2, some e)
  else
    match installCommonModules InstallType.forceClean w s2 with
    | .error e => (s2, some e)
    | .ok s3 =>
      match runNpmShrinkwrap w s3 with
      | .error e => (s3, some e)
      | .ok s4 =>
        let s5 := syncFile s4
        match refreshMarkerStep s5 with
        | .ok s6 => (s6, none)
        | .error e => (s5, some e)

/-! ## UnlinkAction (src/unnamed/part_000) -/

/-- The repository state touched by `UnlinkAction.onExecute`: whether the
`rush-link.json` flag file exists, and for each registered project (in
`rushConfiguration.projects` order) whether its `node_modules` folder
exists. -/
structure UnlinkState where
  rushLinkJsonExists : Bool
  projectNodeModules : List Bool
deriving DecidableEq, Repr

/-- The per-project loop of `UnlinkAction.onExecute` (part_000 lines 42-50):
for each project, if its `node_modules` folder exists, delete it and record
that something was done.  Returns the folders' new existence flags and the
final `didAnything`. -/
def purgeProjects : List Bool → List Bool × Bool
  | [] => ([], false)
  | b :: rest =>
    let r := purgeProjects rest
    if b then (false :: r.1, true) else (b :: r.1, r.2)

/-- `UnlinkAction.onExecute` (part_000 lines 35-56): delete the flag file if
it exists (`Utilities.deleteFile`), purge each project's `node_modules`
folder, then print `"Nothing to do."` when no folder was purged and
`"Done."` otherwise.  Returns the final state and the closing message. -/
def unlinkOnExecute (s : UnlinkState) : UnlinkState × String :=
  let p := purgeProjects s.projectNodeModules
  ({ rushLinkJsonExists := false, projectNodeModules := p.1 },
   if p.2 then "Done." else "Nothing to do.")

/-! ## RushCommandLineParser (src/apps/rush/src/actions/RushCommandLineParser.ts) -/

/-- A JavaScript `Error` value: its `message` and its `stack`. -/
structure JsError where
  message : String
  stack : String
deriving DecidableEq, Repr

/-- Result of running a piece of JavaScript code: it returns normally or it
throws an error. -/
inductive ActionResult where
  | ok
  | thrown (e : JsError)
deriving DecidableEq, Repr

/-- How the process run ends, as observed by the user.
`completed`: the command layer returned normally.
`errorReported e printed`: `_exitAndReportError` ran — it printed `printed`
to stderr and called `exitWithError`, which terminates via `process.exit(1)`.
`uncaughtTermination e`: the exception escaped the command layer; the
NodeJS runtime prints its stack and terminates the process with a non-zero
exit code (the debug path relies on this deliberately: "don't catch any
exceptions; show the full call stack"). -/
inductive Outcome where
  | completed
  | errorReported (e : JsError) (printed : String)
  | uncaughtTermination (e : JsError)
deriving DecidableEq, Repr

/-- The outcome is a process termination with a non-zero exit code:
`errorReported` ends in `process.exit(1)` and an uncaught exception makes
the NodeJS runtime exit non-zero. -/
def Outcome.exitsNonZero : Outcome → Bool
  | .completed => false
  | .errorReported _ _ => true
  | .uncaughtTermination _ => true

/-- The outcome carries the error `e` to the user rather than discarding
it: either the command layer reported it or the runtime printed it as an
uncaught exception. -/
def Outcome.carriesError (e : JsError) : Outcome → Bool
  | .completed => false
  | .errorReported e' _ => e' == e
  | .uncaughtTermination e' => e' == e

/-- `RushCommandLineParser.exitWithError` (lines 52-58):
`try { this.telemetry.flush(); } finally { process.exit(1); }`.  The
`finally` block runs `process.exit(1)` whether or not `flush()` threw, so
the resulting exit code is 1 on both paths. -/
def exitWithError (flushResult : ActionResult) : Nat :=
  match flushResult with
  | .ok => 1
  | .thrown _ => 1

/-- `RushCommandLineParser._exitAndReportError` (lines 119-130): with
`--debug` print the error's stack, otherwise print `ERROR: ` plus the
error's message (word-wrapped; the wrap of the trimmed message is modelled
as the message itself); then `exitWithError()`. -/
def exitAndReportError (debug : Bool) (e : JsError) : Outcome :=
  if debug then
    .errorReported e ("\n" ++ e.stack)
  else
    .errorReported e ("\nERROR: " ++ e.message)

/-- `RushCommandLineParser.catchSyncErrors` (lines 46-50): attach a rejection
handler to the promise; a rejection value is passed to
`_exitAndReportError`.  Returns `none` when the promise fulfils (nothing
happens) and the resulting outcome when it rejects. -/
def catchSyncErrors (debug : Bool) (promiseResult : ActionResult) : Option Outcome :=
  match promiseResult with
  | .ok => none
  | .thrown e => some (exitAndReportError debug e)

/-- `RushCommandLineParser.onExecute` (lines 68-81): with `--debug`, run the
action and flush telemetry with no exception handler (an exception escapes
uncaught); otherwise wrap both in `try/catch` and route any exception to
`_exitAndReportError`. -/
def parserOnExecute (debug : Bool) (inner flushResult : ActionResult) : Outcome :=
  if debug then
    match inner with
    | .thrown e => .uncaughtTermination e
    | .ok =>
      match flushResult with
      | .thrown e => .uncaughtTermination e
      | .ok => .completed
  else
    match inner with
    | .thrown e => exitAndReportError false e
    | .ok =>
      match flushResult with
      | .thrown e => exitAndReportError false e
      | .ok => .completed

/-- The process environment fields read or written by the command layer. -/
structure ProcessEnv where
  pathVar : String
deriving DecidableEq, Repr

/-- `RushCommandLineParser._ensureEnvironment` (lines 110-117): read
`process.env['PATH']`, prefix it with
`path.join(commonTempFolder, 'node_modules', '.bin')` plus the path
delimiter, and write it back to `process.env['PATH']` (POSIX separators:
`/` for `path.join`, `:` for `path.delimiter`). -/
def ensureEnvironment (commonTempFolder : String) (env : ProcessEnv) : ProcessEnv :=
  { env with pathVar := commonTempFolder ++ "/node_modules/.bin" ++ ":" ++ env.pathVar }

/-! ## Approved Packages Governance

`ApprovedPackagesChecker.rewriteConfigFiles` is invoked at
GenerateAction.ts line 60 but its implementation is not among the sources;
only its persisted format is (src/apps/rush-lib/src/approved-packages.schema.json:
a list of `{name, allowedCategories}` records).  The rewrite is therefore
modelled from the spec (§4.2): a pure reducer `(existingList, observedUsage)
→ newList` that, for every observed external name, adds a missing entry
seeded with the consuming projects' categories or extends a present entry
with missing categories; the output is sorted by name, deduplicated, and
additive (no existing entry is removed); categories are kept in canonical
sorted-deduplicated form so that persisting is deterministic. -/

/-- An entry of the approved packages file
(`packageInfo` in approved-packages.schema.json). -/
structure ApprovedPackageEntry where
  name : String
  allowedCategories : List String
deriving DecidableEq, Repr

/-- Insert a string into a strictly-sorted list, keeping it strictly sorted
(no duplicates). -/
def insertSorted (x : String) : List String → List String
  | [] => [x]
  | y :: ys =>
    if x < y then x :: y :: ys
    else if x = y then y :: ys
    else y :: insertSorted x ys

/-- Canonical sorted-deduplicated form of a list of strings. -/
def normalizeStrings (l : List String) : List String :=
  l.foldr insertSorted []

/-- Observed usage is a list of (external package name, review category of a
consuming project) pairs. -/
def usageCategoriesFor (usage : List (String × String)) (n : String) : List String :=
  (usage.filter (fun u => u.1 == n)).map Prod.snd

/-- All categories the existing governance list allows for name `n`. -/
def existingCategoriesFor (existing : List ApprovedPackageEntry) (n : String) : List String :=
  ((existing.filter (fun e => e.name == n)).map ApprovedPackageEntry.allowedCategories).flatten

/-- Modelled from the spec: the pure governance reducer of §4.2.  The new
list has one entry per name occurring in the existing list or in the
observed usage, sorted by name; each entry's categories are the existing
ones united with the observed consuming projects' categories. -/
def rewriteApprovedPackages (existing : List ApprovedPackageEntry)
    (usage : List (String × String)) : List ApprovedPackageEntry :=
  (normalizeStrings (existing.map ApprovedPackageEntry.name ++ usage.map Prod.fst)).map
    fun n =>
      { name := n
        allowedCategories :=
          normalizeStrings (existingCategoriesFor existing n ++ usageCategoriesFor usage n) }

/-- Serialization of one entry into the persisted JSON form of
approved-packages.schema.json. -/
def serializeEntry (e : ApprovedPackageEntry) : String :=
  "\x7b \"name\": \"" ++ e.name ++ "\", \"allowedCategories\": [" ++
    String.intercalate ", " (e.allowedCategories.map (fun c => "\"" ++ c ++ "\"")) ++ "] \x7d"

/-- Serialization of the whole approved packages file: the governance write
is a deterministic function of the entry list. -/
def serializeApprovedPackages (l : List ApprovedPackageEntry) : String :=
  "\x7b \"packages\": [" ++ String.intercalate ", " (l.map serializeEntry) ++ "] \x7d"

/-- The spec's timestamp ordering after a full install (§8): Install Marker
timestamp ≥ committed Lock File timestamp ≥ Synthesized Manifest timestamp,
where the committed Lock File may instead have been deleted (empty
synthesized manifest); marker and manifest must exist. -/
def timesOrdered : Option Nat → Option Nat → Option Nat → Prop
  | some a, some l, some m => a ≤ l ∧ l ≤ m
  | some a, none, some m => a ≤ m
  | _, _, _ => False

end Rush

namespace Rush

/-! ## Theorems about UnlinkAction -/

/-- Helper: the unlink purge loop deletes every existing `node_modules`
folder and reports whether any existed. -/
theorem purgeProjects_spec (l : List Bool) :
    (purgeProjects l).1 = l.map (fun _ => false) ∧
    (purgeProjects l).2 = l.any (fun b => b) := by
  induction l with
  | nil => simp [purgeProjects]
  | cons b rest ih =>
    cases b <;> simp [purgeProjects, ih.1, ih.2]

/-- Helper: the purge loop leaves the folders unchanged exactly when none
existed. -/
theorem purgeProjects_fst_eq_self (l : List Bool) :
    (purgeProjects l).1 = l ↔ l.any (fun b => b) = false := by
  induction l with
  | nil => simp [purgeProjects]
  | cons b rest ih => cases b <;> simp [purgeProjects, ih]

/-- Helper: after the purge loop no folder exists any more. -/
theorem purgeProjects_fst_any (l : List Bool) :
    ((purgeProjects l).1.any (fun b => b)) = false := by
  induction l with
  | nil => rfl
  | cons b rest ih => cases b <;> simp [purgeProjects, ih]

/-- Helper: the purge loop is the identity (and reports no work) on a state
with no folders. -/
theorem purgeProjects_no_links (l : List Bool) (h : l.any (fun b => b) = false) :
    purgeProjects l = (l, false) := by
  induction l with
  | nil => rfl
  | cons b rest ih =>
    cases b
    · simp only [List.any_cons, Bool.false_or] at h
      simp [purgeProjects, ih h]
    · simp at h

/-- C8: on every repository state, `UnlinkAction.onExecute` removes the
rush-link flag file and every project's `node_modules` folder, so the next
link run starts from an unlinked state. -/
theorem unlink_removes_links_and_marker (s : UnlinkState) :
    (unlinkOnExecute s).1.rushLinkJsonExists = false ∧
    (unlinkOnExecute s).1.projectNodeModules = s.projectNodeModules.map (fun _ => false) := by
  exact ⟨rfl, by simp [unlinkOnExecute, (purgeProjects_spec s.projectNodeModules).1]⟩

/-- C4 counterexample: a repository with one project, no `node_modules`
folder, but an existing rush-link flag file: unlink prints "Nothing to do."
yet mutates the filesystem — the flag file existed before the run and is
gone after it. -/
theorem unlink_reports_nothing_but_mutates :
    ({ rushLinkJsonExists := true, projectNodeModules := [false] } : UnlinkState).rushLinkJsonExists
        = true ∧
    (unlinkOnExecute { rushLinkJsonExists := true, projectNodeModules := [false] }).2 =
      "Nothing to do." ∧
    (unlinkOnExecute
        { rushLinkJsonExists := true, projectNodeModules := [false] }).1.rushLinkJsonExists
        = false ∧
    (unlinkOnExecute { rushLinkJsonExists := true, projectNodeModules := [false] }).1 ≠
      ({ rushLinkJsonExists := true, projectNodeModules := [false] } : UnlinkState) := by
  refine ⟨rfl, rfl, rfl, by decide⟩

/-- C4 (amended): `UnlinkAction.onExecute` mutates nothing exactly when no
project has a `node_modules` folder AND the rush-link flag file is already
absent; it prints "Nothing to do." whenever no project folder was purged
(even if it deleted the flag file); and it is idempotent: a second
consecutive run on the resulting state mutates nothing and prints "Nothing
to do.". -/
theorem unlink_idempotent (s : UnlinkState) :
    ((unlinkOnExecute s).1 = s ↔
      (s.rushLinkJsonExists = false ∧ s.projectNodeModules.any (fun b => b) = false)) ∧
    (unlinkOnExecute s).2 =
      (if s.projectNodeModules.any (fun b => b) then "Done." else "Nothing to do.") ∧
    (unlinkOnExecute (unlinkOnExecute s).1).1 = (unlinkOnExecute s).1 ∧
    (unlinkOnExecute (unlinkOnExecute s).1).2 = "Nothing to do." := by
  obtain ⟨flag, l⟩ := s
  have hsecond := purgeProjects_no_links ((purgeProjects l).1) (purgeProjects_fst_any l)
  refine ⟨?_, ?_, ?_, ?_⟩
  · show (⟨false, (purgeProjects l).1⟩ : UnlinkState) = ⟨flag, l⟩ ↔ _
    rw [UnlinkState.mk.injEq, purgeProjects_fst_eq_self]
    constructor
    · rintro ⟨hf, hl⟩; exact ⟨hf.symm, hl⟩
    · rintro ⟨hf, hl⟩; exact ⟨hf.symm, hl⟩
  · show (if (purgeProjects l).2 then "Done." else "Nothing to do.") = _
    rw [(purgeProjects_spec l).2]
  · show (⟨false, (purgeProjects ((purgeProjects l).1)).1⟩ : UnlinkState) = _
    rw [hsecond]
    rfl
  · show (if (purgeProjects ((purgeProjects l).1)).2 then "Done." else "Nothing to do.") = _
    rw [hsecond]
    rfl

/-! ## Theorems about RushCommandLineParser -/

/-- C6: every error raised by an action — synchronously through
`onExecute`'s try/catch or asynchronously through `catchSyncErrors` — is
carried to a process termination with a non-zero exit code and is never
discarded; without `--debug` it is reported via `_exitAndReportError`
(printed message, `process.exit(1)`), with `--debug` it escapes so that the
runtime prints the full stack and exits non-zero. -/
theorem raised_errors_reach_command_layer (debug : Bool) (e : JsError)
    (flushResult : ActionResult) :
    (parserOnExecute debug (.thrown e) flushResult).carriesError e = true ∧
    (parserOnExecute debug (.thrown e) flushResult).exitsNonZero = true ∧
    catchSyncErrors debug (.thrown e) = some (exitAndReportError debug e) ∧
    (exitAndReportError debug e).carriesError e = true ∧
    (exitAndReportError debug e).exitsNonZero = true := by
  cases debug <;>
    simp [parserOnExecute, catchSyncErrors, exitAndReportError,
      Outcome.carriesError, Outcome.exitsNonZero]

/-- C10: `exitWithError` terminates the process with exit code 1 whether or
not the telemetry flush throws: `process.exit(1)` sits in the `finally`
block. -/
theorem exitWithError_exit_code_one (flushResult : ActionResult) :
    exitWithError flushResult = 1 := by
  cases flushResult <;> rfl

/-- C5 counterexample: `_ensureEnvironment` mutates the ambient process
environment: with common temp folder `/repo/common/temp` and `PATH`
`/usr/bin`, the `PATH` after the call is the prefixed search path, not the
original value. -/
theorem ensureEnvironment_changes_processEnv :
    ({ pathVar := "/usr/bin" } : ProcessEnv).pathVar = "/usr/bin" ∧
    (ensureEnvironment "/repo/common/temp" { pathVar := "/usr/bin" }).pathVar =
      "/repo/common/temp/node_modules/.bin:/usr/bin" ∧
    ensureEnvironment "/repo/common/temp" { pathVar := "/usr/bin" } ≠
      ({ pathVar := "/usr/bin" } : ProcessEnv) := by
  refine ⟨rfl, rfl, by decide⟩

/-- C5 (amended): `RushCommandLineParser._ensureEnvironment` mutates the
process-wide environment: it replaces `PATH` by the common temp folder's
`node_modules/.bin` directory, the path delimiter, and the previous `PATH`
— a strictly longer string, so the ambient value always changes. -/
theorem ensureEnvironment_mutates_path (c : String) (env : ProcessEnv) :
    (ensureEnvironment c env).pathVar = c ++ "/node_modules/.bin" ++ ":" ++ env.pathVar ∧
    env.pathVar.length < (ensureEnvironment c env).pathVar.length := by
  refine ⟨rfl, ?_⟩
  have h18 : ("/node_modules/.bin" : String).length = 18 := rfl
  have h1 : (":" : String).length = 1 := rfl
  simp [ensureEnvironment, String.length_append, h18, h1]

/-! ## Theorems about GenerateAction -/

/-- C1 counterexample: a lazy (`--lazy`) `rush generate` run on a state
whose committed Lock File exists: after the run the committed Lock File is
gone — GenerateAction.ts deletes both shrinkwrap copies before branching on
`isLazy`. -/
theorem generate_lazy_deletes_committed_lockfile :
    ((⟨0, some 0, none, none, none, false⟩ : FsState).committedShrinkwrap = some 0) ∧
    (generateOnExecute true ⟨true, true, true, true⟩
        ⟨0, some 0, none, none, none, false⟩).2 = none ∧
    (generateOnExecute true ⟨true, true, true, true⟩
        ⟨0, some 0, none, none, none, false⟩).1.committedShrinkwrap = none := by
  refine ⟨rfl, rfl, rfl⟩

/-- C1 (amended): a lazy install run merges into the shared cache and
updates the Install Marker and does not regenerate any Lock File — but it
first deletes both shrinkwrap copies, so after the run the committed Lock
File is absent (not untouched). -/
theorem generate_lazy_spec (w : ExternalWorld) (s0 : FsState)
    (hi : w.installSucceeds = true) (hm : w.installCreatesMarker = true) :
    (generateOnExecute true w s0).2 = none ∧
    (generateOnExecute true w s0).1.committedShrinkwrap = none ∧
    (generateOnExecute true w s0).1.tempShrinkwrap = none ∧
    (generateOnExecute true w s0).1.sharedCacheInstalled = true ∧
    (generateOnExecute true w s0).1.installMarker = some (s0.clock + 1) := by
  obtain ⟨wi, wm, ws, wp⟩ := w
  subst hi
  subst hm
  obtain ⟨c, cs, ts, tm, im, sc⟩ := s0
  cases cs <;> cases ts <;>
    simp [generateOnExecute, createTempModules, deleteCommittedShrinkwrapFile,
      deleteTempShrinkwrapFile, installCommonModules]

/-- C1 witness: the amended lazy-run theorem at a concrete state. -/
theorem generate_lazy_spec_witness :
    (generateOnExecute true ⟨true, true, true, true⟩
        ⟨0, some 0, some 0, none, none, false⟩).2 = none ∧
    (generateOnExecute true ⟨true, true, true, true⟩
        ⟨0, some 0, some 0, none, none, false⟩).1.committedShrinkwrap = none ∧
    (generateOnExecute true ⟨true, true, true, true⟩
        ⟨0, some 0, some 0, none, none, false⟩).1.tempShrinkwrap = none ∧
    (generateOnExecute true ⟨true, true, true, true⟩
        ⟨0, some 0, some 0, none, none, false⟩).1.sharedCacheInstalled = true ∧
    (generateOnExecute true ⟨true, true, true, true⟩
        ⟨0, some 0, some 0, none, none, false⟩).1.installMarker = some 1 :=
  generate_lazy_spec ⟨true, true, true, true⟩ ⟨0, some 0, some 0, none, none, false⟩ rfl rfl

/-- C2: in a full (non-lazy) generate run whose external-tool invocations
succeed, the run fails with `Error('The install flag file is missing')`
exactly when the install flag file is absent at the refresh point; when the
flag file is present the run succeeds and the marker is rewritten with a
fresh timestamp (the latest write of the run). -/
theorem generate_full_marker_check (w : ExternalWorld) (s0 : FsState)
    (hi : w.installSucceeds = true) (hs : w.shrinkwrapSucceeds = true) :
    (generateOnExecute false w s0).2 =
      (if w.installCreatesMarker then none
       else some (RushError.missingArtifact "The install flag file is missing")) ∧
    (generateOnExecute false w s0).1.installMarker =
      (if w.installCreatesMarker then
        some (if w.shrinkwrapProducesFile then s0.clock + 4 else s0.clock + 3)
       else none) := by
  obtain ⟨wi, wm, ws, wp⟩ := w
  subst hi
  subst hs
  obtain ⟨c, cs, ts, tm, im, sc⟩ := s0
  cases wm <;> cases wp <;> cases cs <;> cases ts <;>
    simp [generateOnExecute, createTempModules, deleteCommittedShrinkwrapFile,
      deleteTempShrinkwrapFile, installCommonModules, runNpmShrinkwrap, syncFile,
      refreshMarkerStep]

/-- C2 witness: the marker-check theorem at concrete states, in both the
marker-absent and the marker-present case. -/
theorem generate_full_marker_check_witness :
    ((generateOnExecute false ⟨true, false, true, true⟩
        ⟨0, some 0, none, none, none, false⟩).2 =
      (if (⟨true, false, true, true⟩ : ExternalWorld).installCreatesMarker then none
       else some (RushError.missingArtifact "The install flag file is missing")) ∧
    (generateOnExecute false ⟨true, false, true, true⟩
        ⟨0, some 0, none, none, none, false⟩).1.installMarker =
      (if (⟨true, false, true, true⟩ : ExternalWorld).installCreatesMarker then
        some (if (⟨true, false, true, true⟩ : ExternalWorld).shrinkwrapProducesFile
          then (⟨0, some 0, none, none, none, false⟩ : FsState).clock + 4
          else (⟨0, some 0, none, none, none, false⟩ : FsState).clock + 3)
       else none)) ∧
    ((generateOnExecute false ⟨true, true, true, true⟩
        ⟨0, some 0, none, none, none, false⟩).2 =
      (if (⟨true, true, true, true⟩ : ExternalWorld).installCreatesMarker then none
       else some (RushError.missingArtifact "The install flag file is missing")) ∧
    (generateOnExecute false ⟨true, true, true, true⟩
        ⟨0, some 0, none, none, none, false⟩).1.installMarker =
      (if (⟨true, true, true, true⟩ : ExternalWorld).installCreatesMarker then
        some (if (⟨true, true, true, true⟩ : ExternalWorld).shrinkwrapProducesFile
          then (⟨0, some 0, none, none, none, false⟩ : FsState).clock + 4
          else (⟨0, some 0, none, none, none, false⟩ : FsState).clock + 3)
       else none)) :=
  ⟨generate_full_marker_check ⟨true, false, true, true⟩ ⟨0, some 0, none, none, none, false⟩
      rfl rfl,
   generate_full_marker_check ⟨true, true, true, true⟩ ⟨0, some 0, none, none, none, false⟩
      rfl rfl⟩

/-- C3: a successful full generate run regenerates the staging lock file,
then copies it to the committed location (or deletes the committed file
when the synthesized manifest produced no lock file), and only then
refreshes the Install Marker; consequently Install Marker timestamp ≥
committed Lock File timestamp ≥ Synthesized Manifest timestamp. -/
theorem generate_full_timestamp_order (w : ExternalWorld) (s0 : FsState)
    (hi : w.installSucceeds = true) (hm : w.installCreatesMarker = true)
    (hs : w.shrinkwrapSucceeds = true) :
    (generateOnExecute false w s0).2 = none ∧
    timesOrdered (generateOnExecute false w s0).1.tempManifest
      (generateOnExecute false w s0).1.committedShrinkwrap
      (generateOnExecute false w s0).1.installMarker := by
  obtain ⟨wi, wm, ws, wp⟩ := w
  subst hi
  subst hm
  subst hs
  obtain ⟨c, cs, ts, tm, im, sc⟩ := s0
  cases wp <;> cases cs <;> cases ts <;>
    simp [generateOnExecute, createTempModules, deleteCommittedShrinkwrapFile,
      deleteTempShrinkwrapFile, installCommonModules, runNpmShrinkwrap, syncFile,
      refreshMarkerStep, timesOrdered] <;> omega

/-- C3 witness: the timestamp-order theorem at a concrete state. -/
theorem generate_full_timestamp_order_witness :
    (generateOnExecute false ⟨true, true, true, true⟩
        ⟨5, some 0, some 0, some 0, some 0, false⟩).2 = none ∧
    timesOrdered
      (generateOnExecute false ⟨true, true, true, true⟩
        ⟨5, some 0, some 0, some 0, some 0, false⟩).1.tempManifest
      (generateOnExecute false ⟨true, true, true, true⟩
        ⟨5, some 0, some 0, some 0, some 0, false⟩).1.committedShrinkwrap
      (generateOnExecute false ⟨true, true, true, true⟩
        ⟨5, some 0, some 0, some 0, some 0, false⟩).1.installMarker :=
  generate_full_timestamp_order ⟨true, true, true, true⟩
    ⟨5, some 0, some 0, some 0, some 0, false⟩ rfl rfl rfl

/-- C9: in every full generate run the committed Lock File is deleted
before the external install tool runs, so when the tool fails the run
aborts with `ExternalToolError` and the committed Lock File is left
absent — the full install is not atomic for the committed Lock File on the
error path. -/
theorem generate_full_toolFailure_leaves_lockfile_deleted (w : ExternalWorld)
    (s0 : FsState) (hi : w.installSucceeds = false) :
    (generateOnExecute false w s0).2 = some (RushError.externalTool "npm install failed") ∧
    (generateOnExecute false w s0).1.committedShrinkwrap = none ∧
    (generateOnExecute false w s0).1.tempShrinkwrap = none := by
  obtain ⟨wi, wm, ws, wp⟩ := w
  subst hi
  obtain ⟨c, cs, ts, tm, im, sc⟩ := s0
  cases cs <;> cases ts <;>
    simp [generateOnExecute, createTempModules, deleteCommittedShrinkwrapFile,
      deleteTempShrinkwrapFile, installCommonModules]

/-- C9 witness: the error-path theorem at a concrete state whose committed
Lock File existed before the run. -/
theorem generate_full_toolFailure_witness :
    (generateOnExecute false ⟨false, true, true, true⟩
        ⟨0, some 0, some 0, none, some 0, false⟩).2 =
      some (RushError.externalTool "npm install failed") ∧
    (generateOnExecute false ⟨false, true, true, true⟩
        ⟨0, some 0, some 0, none, some 0, false⟩).1.committedShrinkwrap = none ∧
    (generateOnExecute false ⟨false, true, true, true⟩
        ⟨0, some 0, some 0, none, some 0, false⟩).1.tempShrinkwrap = none :=
  generate_full_toolFailure_leaves_lockfile_deleted ⟨false, true, true, true⟩
    ⟨0, some 0, some 0, none, some 0, false⟩ rfl

end Rush

namespace Rush

/-! ## Theorems about the Approved Packages Governance rewrite -/

/-- Helper: membership in a sorted insertion. -/
theorem mem_insertSorted (x a : String) (l : List String) :
    a ∈ insertSorted x l ↔ a = x ∨ a ∈ l := by
  induction l with
  | nil => simp [insertSorted]
  | cons y ys ih =>
    by_cases h1 : x < y
    · simp [insertSorted, h1]
    · by_cases h2 : x = y
      · simp only [insertSorted, if_neg h1, if_pos h2, List.mem_cons]
        subst h2
        tauto
      · simp only [insertSorted, if_neg h1, if_neg h2, List.mem_cons, ih]
        tauto

theorem pairwise_insertSorted (x : String) (l : List String)
    (h : l.Pairwise (· < ·)) : (insertSorted x l).Pairwise (· < ·) := by
  induction l with
  | nil => simp [insertSorted]
  | cons y ys ih =>
    rw [List.pairwise_cons] at h
    obtain ⟨hy, hys⟩ := h
    by_cases h1 : x < y
    · simp only [insertSorted, if_pos h1]
      refine List.Pairwise.cons ?_ (List.Pairwise.cons hy hys)
      intro b hb
      rcases List.mem_cons.mp hb with rfl | hb
      · exact h1
      · exact lt_trans h1 (hy b hb)
    · by_cases h2 : x = y
      · simp only [insertSorted, if_neg h1, if_pos h2]
        exact List.Pairwise.cons hy hys
      · simp only [insertSorted, if_neg h1, if_neg h2]
        refine List.Pairwise.cons ?_ (ih hys)
        intro b hb
        rcases (mem_insertSorted x b ys).mp hb with rfl | hb
        · rcases lt_trichotomy b y with h3 | h3 | h3
          · exact absurd h3 h1
          · exact absurd h3 h2
          · exact h3
        · exact hy b hb

theorem pairwise_normalizeStrings (l : List String) :
    (normalizeStrings l).Pairwise (· < ·) := by
  induction l with
  | nil => exact List.Pairwise.nil
  | cons x xs ih => exact pairwise_insertSorted x _ ih

theorem mem_normalizeStrings (a : String) (l : List String) :
    a ∈ normalizeStrings l ↔ a ∈ l := by
  induction l with
  | nil => simp [normalizeStrings]
  | cons x xs ih =>
    simp only [normalizeStrings, List.foldr_cons] at ih ⊢
    rw [mem_insertSorted, ih, List.mem_cons]

theorem sorted_eq_of_mem_iff (l₁ : List String) : ∀ (l₂ : List String),
    l₁.Pairwise (· < ·) → l₂.Pairwise (· < ·) → (∀ a, a ∈ l₁ ↔ a ∈ l₂) → l₁ = l₂ := by
  induction l₁ with
  | nil =>
    intro l₂ _ _ h
    cases l₂ with
    | nil => rfl
    | cons b l₂ => exact absurd ((h b).mpr (List.mem_cons_self b l₂)) (List.not_mem_nil b)
  | cons a l₁ ih =>
    intro l₂ h₁ h₂ h
    cases l₂ with
    | nil => exact absurd ((h a).mp (List.mem_cons_self a l₁)) (List.not_mem_nil a)
    | cons b l₂ =>
      rw [List.pairwise_cons] at h₁ h₂
      have hab : a = b := by
        rcases List.mem_cons.mp ((h a).mp (List.mem_cons_self a l₁)) with h' | h'
        · exact h'
        · rcases List.mem_cons.mp ((h b).mpr (List.mem_cons_self b l₂)) with h'' | h''
          · exact h''.symm
          · exact absurd (h₁.1 b h'') (lt_asymm (h₂.1 a h'))
      subst hab
      have htail : ∀ x, x ∈ l₁ ↔ x ∈ l₂ := by
        intro x
        constructor
        · intro hx
          rcases List.mem_cons.mp ((h x).mp (List.mem_cons_of_mem a hx)) with rfl | h'
          · exact absurd (h₁.1 x hx) (lt_irrefl x)
          · exact h'
        · intro hx
          rcases List.mem_cons.mp ((h x).mpr (List.mem_cons_of_mem a hx)) with rfl | h'
          · exact absurd (h₂.1 x hx) (lt_irrefl x)
          · exact h'
      rw [ih l₂ h₁.2 h₂.2 htail]

theorem normalizeStrings_congr (l l' : List String)
    (h : ∀ a, a ∈ l ↔ a ∈ l') : normalizeStrings l = normalizeStrings l' :=
  sorted_eq_of_mem_iff _ _ (pairwise_normalizeStrings l) (pairwise_normalizeStrings l')
    (fun a => by rw [mem_normalizeStrings, mem_normalizeStrings]; exact h a)

theorem filter_entry_cons (m : String) (cats : List String)
    (rest : List ApprovedPackageEntry) (n : String) :
    ((ApprovedPackageEntry.mk m cats :: rest).filter (fun e => e.name == n)) =
      (if m = n
       then ApprovedPackageEntry.mk m cats :: rest.filter (fun e => e.name == n)
       else rest.filter (fun e => e.name == n)) := by
  by_cases h : m = n
  · subst h
    simp [List.filter_cons]
  · simp [List.filter_cons, h]

theorem filter_entry_not_mem (ms : List String) (g : String → List String) (n : String)
    (h : n ∉ ms) :
    ((ms.map (fun m => ApprovedPackageEntry.mk m (g m))).filter (fun e => e.name == n)) = [] := by
  induction ms with
  | nil => rfl
  | cons m ms ih =>
    simp only [List.mem_cons, not_or] at h
    rw [List.map_cons, filter_entry_cons, if_neg (fun e => h.1 e.symm)]
    exact ih h.2

theorem filter_entry_of_nodup (ns : List String) (g : String → List String) (n : String)
    (h : ns.Pairwise (· < ·)) :
    ((ns.map (fun m => ApprovedPackageEntry.mk m (g m))).filter (fun e => e.name == n)) =
      (if n ∈ ns then [ApprovedPackageEntry.mk n (g n)] else []) := by
  induction ns with
  | nil => simp
  | cons m ms ih =>
    rw [List.pairwise_cons] at h
    rw [List.map_cons, filter_entry_cons]
    by_cases hmn : m = n
    · subst hmn
      have hnot : m ∉ ms := fun hm => absurd (h.1 m hm) (lt_irrefl m)
      rw [if_pos rfl, if_pos (List.mem_cons_self m ms), filter_entry_not_mem ms g m hnot]
    · rw [if_neg hmn, ih h.2]
      by_cases hn : n ∈ ms
      · rw [if_pos hn, if_pos (List.mem_cons_of_mem m hn)]
      · rw [if_neg hn, if_neg (fun hc => (List.mem_cons.mp hc).elim (fun e => hmn e.symm) hn)]

theorem rewrite_names (existing : List ApprovedPackageEntry) (usage : List (String × String)) :
    (rewriteApprovedPackages existing usage).map ApprovedPackageEntry.name =
      normalizeStrings (existing.map ApprovedPackageEntry.name ++ usage.map Prod.fst) := by
  unfold rewriteApprovedPackages
  rw [List.map_map]
  conv_rhs => rw [← List.map_id (normalizeStrings
    (existing.map ApprovedPackageEntry.name ++ usage.map Prod.fst))]
  apply List.map_congr_left
  intro a _
  rfl

theorem existingCategoriesFor_map (ns : List String) (g : String → List String) (n : String)
    (h : ns.Pairwise (· < ·)) :
    existingCategoriesFor (ns.map (fun m => ApprovedPackageEntry.mk m (g m))) n =
      (if n ∈ ns then g n else []) := by
  unfold existingCategoriesFor
  rw [filter_entry_of_nodup ns g n h]
  by_cases hn : n ∈ ns
  · rw [if_pos hn, if_pos hn]
    simp
  · rw [if_neg hn, if_neg hn]
    rfl

theorem existingCategoriesFor_rewrite (existing : List ApprovedPackageEntry)
    (usage : List (String × String)) (n : String) :
    existingCategoriesFor (rewriteApprovedPackages existing usage) n =
      (if n ∈ normalizeStrings (existing.map ApprovedPackageEntry.name ++ usage.map Prod.fst)
       then normalizeStrings (existingCategoriesFor existing n ++ usageCategoriesFor usage n)
       else []) :=
  existingCategoriesFor_map
    (normalizeStrings (existing.map ApprovedPackageEntry.name ++ usage.map Prod.fst))
    (fun k => normalizeStrings (existingCategoriesFor existing k ++ usageCategoriesFor usage k))
    n (pairwise_normalizeStrings _)

theorem normalizeStrings_absorb (c u : List String) :
    normalizeStrings (normalizeStrings (c ++ u) ++ u) = normalizeStrings (c ++ u) :=
  normalizeStrings_congr _ _ (fun a => by
    simp only [List.mem_append, mem_normalizeStrings]
    tauto)

/-- C7: the Approved Packages Governance rewrite is idempotent: running the
pure reducer a second time with no new observed usage returns an entry list
equal to the first run's output, and since the persisted file is a
deterministic serialization of that list, the second run's output is
byte-identical to the first run's (sorted by name, deduplicated, additive
only). -/
theorem rewriteApprovedPackages_idempotent (existing : List ApprovedPackageEntry)
    (usage : List (String × String)) :
    rewriteApprovedPackages (rewriteApprovedPackages existing usage) usage =
      rewriteApprovedPackages existing usage ∧
    serializeApprovedPackages
        (rewriteApprovedPackages (rewriteApprovedPackages existing usage) usage) =
      serializeApprovedPackages (rewriteApprovedPackages existing usage) := by
  have hnames : normalizeStrings
      ((rewriteApprovedPackages existing usage).map ApprovedPackageEntry.name ++
        usage.map Prod.fst) =
      normalizeStrings (existing.map ApprovedPackageEntry.name ++ usage.map Prod.fst) := by
    rw [rewrite_names]
    apply normalizeStrings_congr
    intro a
    simp only [List.mem_append, mem_normalizeStrings]
    tauto
  have hmain : rewriteApprovedPackages (rewriteApprovedPackages existing usage) usage =
      rewriteApprovedPackages existing usage := by
    calc rewriteApprovedPackages (rewriteApprovedPackages existing usage) usage
        = (normalizeStrings (existing.map ApprovedPackageEntry.name ++ usage.map Prod.fst)).map
            (fun n => ApprovedPackageEntry.mk n
              (normalizeStrings
                (existingCategoriesFor (rewriteApprovedPackages existing usage) n ++
                  usageCategoriesFor usage n))) := by
          conv_lhs => rw [show rewriteApprovedPackages (rewriteApprovedPackages existing usage) usage =
            (normalizeStrings ((rewriteApprovedPackages existing usage).map ApprovedPackageEntry.name ++ usage.map Prod.fst)).map
              (fun n => ApprovedPackageEntry.mk n
                (normalizeStrings
                  (existingCategoriesFor (rewriteApprovedPackages existing usage) n ++
                    usageCategoriesFor usage n))) from rfl]
          rw [hnames]
      _ = rewriteApprovedPackages existing usage := by
          show _ = (normalizeStrings (existing.map ApprovedPackageEntry.name ++ usage.map Prod.fst)).map
            (fun n => ApprovedPackageEntry.mk n
              (normalizeStrings (existingCategoriesFor existing n ++ usageCategoriesFor usage n)))
          apply List.map_congr_left
          intro n hn
          have hcats := existingCategoriesFor_rewrite existing usage n
          rw [if_pos hn] at hcats
          rw [hcats, normalizeStrings_absorb]
  exact ⟨hmain, by rw [hmain]⟩

end Rush
